import Mathlib

set_option maxRecDepth 40000

/-!
Verification of the backup orchestration engine of `backup_to_google_drive`
(`src/backup_to_google_drive/__main__.py`), via a shallow embedding of its
components: the exponential-backoff retry wrapper, the remote prune step with
rate-paced batch deletion, the folder traversal with exclusion rules, the
per-folder backup worker, and the top-level orchestration in `main`.
-/

/-! ## Retry wrapper: `ConnGoogleDrive._exponential_backoff` -/

/-- Result of one invocation of the method `execute()` of a Google Drive API request:
either a success value or an `HttpError` carrying its HTTP status code. -/
inductive CallResult (α : Type) where
  | success (v : α)
  | httpError (code : Nat)
deriving DecidableEq, Repr

/-- Outcome of the retry wrapper: the returned response, a re-raised
non-retryable `HttpError`, or the generic exhausted-retries `Exception`. -/
inductive RetryOutcome (α : Type) where
  | ok (v : α)
  | raised (code : Nat)
  | exhausted
deriving DecidableEq, Repr

/-- The error classification of the wrapper: `re.search(r"HttpError (500|503)", str(e))`. -/
def retryable (code : Nat) : Bool :=
  code == 500 || code == 503

/-- Whether one invocation failed with a retryable (500/503) `HttpError`. -/
def isRetryableFailure {α : Type} : CallResult α → Bool
  | .httpError c => retryable c
  | _ => false

/-- The loop body of `_exponential_backoff`: `call n` is the result of the
`n`-th invocation of `request.execute()`; `r + 1` is the number of loop
iterations still available (the Python `for n in range(0, 5)` enters with 5).
Returns the outcome together with the number of invocations performed.
On a retryable failure with further iterations left the code sleeps
`2 ** n + random.random()` seconds and retries; the sleep does not affect
the outcome and is not modelled. -/
def backoffGo {α : Type} (call : Nat → CallResult α) : Nat → Nat → RetryOutcome α × Nat
  | _, 0 => (.exhausted, 0)
  | n, r + 1 =>
    match call n with
    | .success v => (.ok v, 1)
    | .httpError c =>
      if retryable c then
        if r = 0 then (.exhausted, 1)
        else
          let rest := backoffGo call (n + 1) r
          (rest.1, rest.2 + 1)
      else (.raised c, 1)

/-- `ConnGoogleDrive._exponential_backoff`: up to 5 attempts (indices 0..4). -/
def exponential_backoff {α : Type} (call : Nat → CallResult α) : RetryOutcome α × Nat :=
  backoffGo call 0 5

lemma backoffGo_success {α : Type} (call : Nat → CallResult α) :
    ∀ (k n r : Nat) (v : α), k < r →
      (∀ i, i < k → isRetryableFailure (call (n + i)) = true) →
      call (n + k) = .success v →
      backoffGo call n r = (.ok v, k + 1) := by
  intro k
  induction k with
  | zero =>
    intro n r v hr _ hs
    match r, hr with
    | r + 1, _ =>
      simp only [backoffGo]
      rw [Nat.add_zero] at hs
      rw [hs]
  | succ k ih =>
    intro n r v hr hf hs
    match r, hr with
    | r + 1, hr =>
      have h0 := hf 0 (Nat.succ_pos k)
      rw [Nat.add_zero] at h0
      simp only [backoffGo]
      match hc : call n with
      | .success w => rw [hc] at h0; simp [isRetryableFailure] at h0
      | .httpError c =>
        rw [hc] at h0
        simp only [isRetryableFailure] at h0
        dsimp only
        have hrpos : r ≠ 0 := by omega
        rw [h0]
        have hrec := ih (n + 1) r v (by omega)
          (fun i hi => by
            have := hf (i + 1) (by omega)
            rwa [show n + (i + 1) = n + 1 + i by omega] at this)
          (by rwa [show n + 1 + k = n + (k + 1) by omega])
        simp [hrpos, hrec]

lemma backoffGo_exhausted {α : Type} (call : Nat → CallResult α) :
    ∀ (r n : Nat), 0 < r →
      (∀ i, i < r → isRetryableFailure (call (n + i)) = true) →
      backoffGo call n r = (.exhausted, r) := by
  intro r
  induction r with
  | zero => intro n h; omega
  | succ r ih =>
    intro n _ hf
    have h0 := hf 0 (Nat.succ_pos r)
    rw [Nat.add_zero] at h0
    simp only [backoffGo]
    match hc : call n with
    | .success w => rw [hc] at h0; simp [isRetryableFailure] at h0
    | .httpError c =>
      rw [hc] at h0
      simp only [isRetryableFailure] at h0
      dsimp only
      rw [h0]
      rcases Nat.eq_zero_or_pos r with hr0 | hrpos
      · subst hr0; simp
      · have hrne : r ≠ 0 := by omega
        have hrec := ih (n + 1) hrpos
          (fun i hi => by
            have := hf (i + 1) (by omega)
            rwa [show n + (i + 1) = n + 1 + i by omega] at this)
        simp [hrne, hrec]

lemma backoffGo_terminal {α : Type} (call : Nat → CallResult α) :
    ∀ (j n r c : Nat), j < r →
      (∀ i, i < j → isRetryableFailure (call (n + i)) = true) →
      call (n + j) = .httpError c → retryable c = false →
      backoffGo call n r = (.raised c, j + 1) := by
  intro j
  induction j with
  | zero =>
    intro n r c hr _ he hnr
    match r, hr with
    | r + 1, _ =>
      rw [Nat.add_zero] at he
      simp only [backoffGo]
      rw [he]
      dsimp only
      rw [hnr]
      simp
  | succ j ih =>
    intro n r c hr hf he hnr
    match r, hr with
    | r + 1, hr =>
      have h0 := hf 0 (Nat.succ_pos j)
      rw [Nat.add_zero] at h0
      simp only [backoffGo]
      match hc : call n with
      | .success w => rw [hc] at h0; simp [isRetryableFailure] at h0
      | .httpError c0 =>
        rw [hc] at h0
        simp only [isRetryableFailure] at h0
        dsimp only
        rw [h0]
        have hrpos : r ≠ 0 := by omega
        have hrec := ih (n + 1) r c (by omega)
          (fun i hi => by
            have := hf (i + 1) (by omega)
            rwa [show n + (i + 1) = n + 1 + i by omega] at this)
          (by rwa [show n + 1 + j = n + (j + 1) by omega]) hnr
        simp [hrpos, hrec]

/-- A call that fails retryably (HTTP 500) twice, then succeeds with `7`. -/
def callRetryTwice : Nat → CallResult Nat :=
  fun i => if i < 2 then .httpError 500 else .success 7

/-- A call that always fails with HTTP 503. -/
def callAlways503 : Nat → CallResult Nat :=
  fun _ => .httpError 503

/-- A call that fails with the non-retryable HTTP 403 on its first invocation. -/
def callForbidden : Nat → CallResult Nat :=
  fun _ => .httpError 403

/-- C2: `_exponential_backoff` (a) returns the success value after exactly
`k + 1` invocations when the first `k < 4` invocations fail retryably and
invocation `k` succeeds; (b) raises the exhausted-retries error after exactly
5 invocations when every invocation fails retryably; (c) re-raises a
non-retryable error immediately after the single invocation that produced it,
with no further attempts. -/
theorem c2_retry_policy :
    (∀ (α : Type) (call : Nat → CallResult α) (k : Nat) (v : α), k < 4 →
      (∀ i, i < k → isRetryableFailure (call i) = true) →
      call k = .success v →
      exponential_backoff call = (.ok v, k + 1)) ∧
    (∀ (α : Type) (call : Nat → CallResult α),
      (∀ i, i < 5 → isRetryableFailure (call i) = true) →
      exponential_backoff call = (.exhausted, 5)) ∧
    (∀ (α : Type) (call : Nat → CallResult α) (j c : Nat), j < 5 →
      (∀ i, i < j → isRetryableFailure (call i) = true) →
      call j = .httpError c → retryable c = false →
      exponential_backoff call = (.raised c, j + 1)) := by
  refine ⟨?_, ?_, ?_⟩
  · intro α call k v hk hf hs
    exact backoffGo_success call k 0 5 v (by omega)
      (fun i hi => by simpa using hf i hi) (by simpa using hs)
  · intro α call hf
    exact backoffGo_exhausted call 5 0 (by omega) (fun i hi => by simpa using hf i hi)
  · intro α call j c hj hf he hnr
    exact backoffGo_terminal call j 0 5 c (by omega)
      (fun i hi => by simpa using hf i hi) (by simpa using he) hnr

/-- Witness for C2 at concrete calls: two 500-failures then success returns
`(ok 7)` in 3 invocations; constant 503 exhausts after 5; a 403 on the first
invocation is raised after exactly 1 invocation. -/
theorem c2_retry_policy_witness :
    exponential_backoff callRetryTwice = (.ok 7, 3) ∧
    exponential_backoff callAlways503 = (.exhausted, 5) ∧
    exponential_backoff callForbidden = (.raised 403, 1) :=
  ⟨c2_retry_policy.1 Nat callRetryTwice 2 7 (by decide) (by decide) (by decide),
   c2_retry_policy.2.1 Nat callAlways503 (by decide),
   c2_retry_policy.2.2 Nat callForbidden 0 403 (by decide) (by decide) (by decide) (by decide)⟩

/-! ## Prune step: `ConnGoogleDrive.clean_backup_folder` -/

/-- One observable event of `clean_backup_folder`: a `time.sleep` pause or one
grouped batch request deleting the given file IDs. -/
inductive CleanEvent where
  | sleep (seconds : Nat)
  | batchDelete (ids : List String)
deriving DecidableEq, Repr

/-- `iterations = math.ceil(len(files_to_del) / 100)`. -/
def iterations (len : Nat) : Nat :=
  (len + 99) / 100

/-- `files_to_del`: the listed IDs that are not in `actual_files`
(`[f for f in self._get_files_in_folder(...) if f not in actual_files]`). -/
def filesToDel (listed actual : List String) : List String :=
  listed.filter (fun f => !actual.contains f)

/-- The event trace of the deletion loop in `clean_backup_folder`: for each
`iteration in range(iterations)` it first sleeps 2 seconds, then submits one
batch containing `files_to_del[iteration*100 : iteration*100+100]` (clipped to
the length of the list). Each batch goes through `_exponential_backoff`; the trace
models the successful execution of each grouped request. -/
def cleanTrace (filesToDelete : List String) : List CleanEvent :=
  (List.range (iterations filesToDelete.length)).flatMap
    (fun it => [.sleep 2, .batchDelete ((filesToDelete.drop (it * 100)).take 100)])

/-- `ConnGoogleDrive.clean_backup_folder(actual_files)`: with no configured
backup folder it logs an error and returns without doing anything; otherwise
it runs the deletion loop on `files_to_del` computed from the folder listing. -/
def clean_backup_folder (googleDriveBackupFolder : Option String)
    (listed actual : List String) : List CleanEvent :=
  match googleDriveBackupFolder with
  | none => []
  | some _ => cleanTrace (filesToDel listed actual)

/-- The file IDs whose deletion was requested across all batches of a trace. -/
def deletedIds (events : List CleanEvent) : List String :=
  events.flatMap (fun e =>
    match e with
    | .sleep _ => []
    | .batchDelete ids => ids)

lemma iterations_pos_step (n : Nat) (h : 0 < n) :
    iterations n = iterations (n - 100) + 1 := by
  unfold iterations
  omega

lemma chunksJoin_eq : ∀ (l : List String),
    (List.range (iterations l.length)).flatMap (fun it => (l.drop (it * 100)).take 100) = l
  | [] => by simp [iterations]
  | a :: l2 => by
    have hlen : 0 < (a :: l2).length := by simp
    have hrec := chunksJoin_eq ((a :: l2).drop 100)
    rw [List.length_drop] at hrec
    rw [iterations_pos_step _ hlen, List.range_succ_eq_map, List.flatMap_cons,
      List.flatMap_map]
    have hstep : (fun it : Nat => ((a :: l2).drop (Nat.succ it * 100)).take 100) =
        (fun it : Nat => (((a :: l2).drop 100).drop (it * 100)).take 100) := by
      funext it
      rw [List.drop_drop]
      have harg : 100 + it * 100 = Nat.succ it * 100 := by omega
      rw [harg]
    rw [hstep, hrec]
    simp
termination_by l => l.length
decreasing_by
  simp [List.length_drop]
  omega

lemma deletedIds_cleanTrace (l : List String) : deletedIds (cleanTrace l) = l := by
  unfold deletedIds cleanTrace
  rw [List.flatMap_assoc]
  have : ∀ it : Nat,
      ([CleanEvent.sleep 2, CleanEvent.batchDelete ((l.drop (it * 100)).take 100)].flatMap
        (fun e => match e with | .sleep _ => [] | .batchDelete ids => ids)) =
      (l.drop (it * 100)).take 100 := by
    intro it
    simp [List.flatMap]
  rw [List.flatMap_congr (fun it _ => this it)]
  exact chunksJoin_eq l

/-- C3: with a destination folder configured, `clean_backup_folder` requests
deletion of exactly the set difference — every listed ID not among the IDs
uploaded this run is deleted, and every ID in the success set is exempt. -/
theorem c3_prune_exact_difference :
    ∀ (folderId : String) (listed actual : List String),
      deletedIds (clean_backup_folder (some folderId) listed actual) =
        listed.filter (fun f => !actual.contains f) ∧
      ∀ x : String,
        (x ∈ deletedIds (clean_backup_folder (some folderId) listed actual) ↔
          x ∈ listed ∧ x ∉ actual) := by
  intro folderId listed actual
  have heq : deletedIds (clean_backup_folder (some folderId) listed actual) =
      listed.filter (fun f => !actual.contains f) := by
    unfold clean_backup_folder
    rw [deletedIds_cleanTrace]
    rfl
  refine ⟨heq, fun x => ?_⟩
  rw [heq]
  simp [List.mem_filter]

/-- The concrete input for C5: 250 object IDs. -/
def idList250 : List String :=
  List.replicate 250 "x"

/-- Counterexample to C5 as stated: for a concrete input of 250 IDs the
deletion loop produces a 2-second pause before each of the three grouped
requests — including before the first one — rather than only between
consecutive requests. -/
theorem c5_counterexample :
    (clean_backup_folder (some "dest") idList250 []).head? = some (.sleep 2) ∧
    clean_backup_folder (some "dest") idList250 [] ≠
      [.batchDelete (List.replicate 100 "x"), .sleep 2,
       .batchDelete (List.replicate 100 "x"), .sleep 2,
       .batchDelete (List.replicate 50 "x")] := by
  constructor
  · decide
  · decide

/-- C5 amended: deleting 250 IDs issues exactly 3 grouped requests covering
the IDs in order with sizes 100, 100 and 50, with a fixed 2-time-unit pause
immediately before each grouped request (including before the first), not
only between consecutive requests. -/
theorem c5_batch_pacing (ids : List String) (h : ids.length = 250) :
    cleanTrace ids =
      [.sleep 2, .batchDelete (ids.take 100),
       .sleep 2, .batchDelete ((ids.drop 100).take 100),
       .sleep 2, .batchDelete ((ids.drop 200).take 100)] := by
  unfold cleanTrace
  rw [h]
  have h3 : iterations 250 = 3 := by decide
  rw [h3]
  rfl

/-- Witness for C5 amended at the concrete 250-ID input. -/
theorem c5_batch_pacing_witness :
    cleanTrace idList250 =
      [.sleep 2, .batchDelete (idList250.take 100),
       .sleep 2, .batchDelete ((idList250.drop 100).take 100),
       .sleep 2, .batchDelete ((idList250.drop 200).take 100)] :=
  c5_batch_pacing idList250 (by decide)

/-! ## Traversal: `ZipMaker._prepare_folder_for_backup` and `ZipMaker._validate_path`

Paths are modelled as lists of components (the result of splitting on the
platform path separator, as `_validate_path` does). A directory tree models
the on-disk filesystem; `walk` models `os.walk`, yielding for every directory
its address (the path of the walked root extended with the subdirectory chain)
together with the plain files it contains, root first, top-down. -/

/-- A directory on disk: its name, its plain files, and its subdirectories. -/
inductive FsTree where
  | dir (name : String) (files : List String) (subs : List FsTree)

/-- The own name of the directory. -/
def FsTree.name : FsTree → String
  | .dir n _ _ => n

mutual
/-- `os.walk` on one directory whose address (path components) is `addr`. -/
def walk (addr : List String) : FsTree → List (List String × List String)
  | .dir _ files subs => (addr, files) :: walkSubs addr subs

/-- `os.walk` continuation over the subdirectories of a directory at `addr`. -/
def walkSubs (addr : List String) : List FsTree → List (List String × List String)
  | [] => []
  | t :: ts => walk (addr ++ [t.name]) t ++ walkSubs addr ts
end

/-- `ZipMaker._validate_path`: true iff some configured excluded folder name
is a component of the path. An unset/empty `exclude_folder_names` (Python
falsy) excludes nothing. -/
def validate_path (excludeFolderNames : List String) (path : List String) : Bool :=
  excludeFolderNames.any (fun folder => path.contains folder)

/-- `ZipMaker.PreparedFile`: absolute source path and archive-internal path. -/
structure PreparedFile where
  absolute_filepath : List String
  filepath : List String
deriving DecidableEq, Repr

/-- The archive-internal path computed in `_prepare_folder_for_backup`:
`os.path.join(root_path, file)` at the walked root, otherwise
`os.path.join(root_path, os.path.relpath(address, start=absolute_root_path),
file)`, where `root_path` is the basename of `absolute_root_path`. -/
def mkFilepath (absoluteRootPath addr : List String) (file : String) : List String :=
  let rootPath := [absoluteRootPath.getLastD ""]
  if addr = absoluteRootPath then rootPath ++ [file]
  else rootPath ++ addr.drop absoluteRootPath.length ++ [file]

/-- The loop body of `_prepare_folder_for_backup` over `os.walk` entries:
excluded addresses are skipped (`continue`), `absolute_root_path` latches onto
the first non-excluded address, and each file yields a `PreparedFile`. -/
def prepareLoop (excludeFolderNames : List String) :
    List (List String × List String) → Option (List String) → List PreparedFile
  | [], _ => []
  | (addr, files) :: rest, absRoot =>
    if validate_path excludeFolderNames addr then
      prepareLoop excludeFolderNames rest absRoot
    else
      let aRoot := absRoot.getD addr
      files.map (fun f => ⟨addr ++ [f], mkFilepath aRoot addr f⟩) ++
        prepareLoop excludeFolderNames rest (some aRoot)

/-- `ZipMaker._prepare_folder_for_backup` applied to the folder at address
`rootAddr` whose on-disk contents are `t`: the list of entries the generator
yields on its first (and only) traversal. -/
def prepare_folder_for_backup (excludeFolderNames rootAddr : List String)
    (t : FsTree) : List PreparedFile :=
  prepareLoop excludeFolderNames (walk rootAddr t) none

/-- The write loop of `ZipMaker.run`: an entry equal to the own
output path of the archive is skipped, an entry whose source vanished (`FileNotFoundError`,
`onDisk` false) is skipped with a warning; the rest are written under their
archive-internal paths. -/
def zipEntries (files : List PreparedFile) (zipfilePath : List String)
    (onDisk : List String → Bool) : List (List String) :=
  (files.filter (fun f =>
    !(f.absolute_filepath == zipfilePath) && onDisk f.absolute_filepath)).map
    (fun f => f.filepath)

/-- The generator object `self.files` created by `ZipMaker.__init__`
(`self.files = self._prepare_folder_for_backup()`): a one-shot iterator over
the prepared entries. -/
structure FilesGen where
  remaining : List PreparedFile
deriving DecidableEq, Repr

/-- The `self.files` generator as constructed for the folder at `rootAddr`
with contents `t`. -/
def zipMakerFiles (excludeFolderNames rootAddr : List String) (t : FsTree) : FilesGen :=
  ⟨prepare_folder_for_backup excludeFolderNames rootAddr t⟩

/-- Fully iterating a generator: yields its buffered entries and leaves it
exhausted (a Python generator does not restart). -/
def iterateGen (g : FilesGen) : List PreparedFile × FilesGen :=
  (g.remaining, ⟨[]⟩)

lemma mem_prepareLoop (excludeFolderNames : List String) :
    ∀ (entries : List (List String × List String)) (absRoot : Option (List String))
      (pf : PreparedFile), pf ∈ prepareLoop excludeFolderNames entries absRoot →
      ∃ addr f, validate_path excludeFolderNames addr = false ∧
        pf.absolute_filepath = addr ++ [f] := by
  intro entries
  induction entries with
  | nil => intro absRoot pf h; simp [prepareLoop] at h
  | cons e rest ih =>
    intro absRoot pf h
    rcases e with ⟨addr, files⟩
    rw [prepareLoop] at h
    by_cases hv : validate_path excludeFolderNames addr = true
    · rw [if_pos hv] at h
      exact ih absRoot pf h
    · rw [if_neg hv] at h
      rcases List.mem_append.mp h with hm | hm
      · rcases List.mem_map.mp hm with ⟨f, _, hpf⟩
        refine ⟨addr, f, by simpa using hv, ?_⟩
        rw [← hpf]
      · exact ih _ pf hm

/-- C6: for every folder, exclusion set and on-disk tree, no produced
`PreparedFile` has an absolute path lying under a directory whose name is in
the exclusion set — excluded subtrees are pruned entirely. -/
theorem c6_excluded_subtrees_pruned :
    ∀ (excludeFolderNames rootAddr : List String) (t : FsTree) (pf : PreparedFile),
      pf ∈ prepare_folder_for_backup excludeFolderNames rootAddr t →
      ∀ e ∈ excludeFolderNames, e ∉ pf.absolute_filepath.dropLast := by
  intro excludeFolderNames rootAddr t pf hmem e he
  rcases mem_prepareLoop excludeFolderNames (walk rootAddr t) none pf hmem with
    ⟨addr, f, hval, habs⟩
  rw [habs]
  have hdrop : (addr ++ [f]).dropLast = addr := by simp
  rw [hdrop]
  intro hcontra
  have : validate_path excludeFolderNames addr = true := by
    unfold validate_path
    rw [List.any_eq_true]
    exact ⟨e, he, by simpa using hcontra⟩
  rw [hval] at this
  exact Bool.false_ne_true this

/-- A concrete folder `docs/` containing `a.txt` and `skip/b.txt`. -/
def tDocs : FsTree :=
  .dir "docs" ["a.txt"] [.dir "skip" ["b.txt"] []]

/-- Witness for C6: for `docs/` with exclusion set `{skip}`, the produced
entry for `docs/a.txt` does not lie under a directory named `skip`. -/
theorem c6_excluded_subtrees_pruned_witness :
    "skip" ∉ (PreparedFile.mk ["docs", "a.txt"] ["docs", "a.txt"]).absolute_filepath.dropLast :=
  c6_excluded_subtrees_pruned ["skip"] ["docs"] tDocs
    (PreparedFile.mk ["docs", "a.txt"] ["docs", "a.txt"]) (by decide) "skip" (by decide)

mutual
theorem walk_addr_extends : ∀ (t : FsTree) (addr p fs : List String),
    (p, fs) ∈ walk addr t → ∃ rest : List String, p = addr ++ rest
  | .dir _ files subs, addr, p, fs, h => by
    rw [walk] at h
    rcases List.mem_cons.mp h with h1 | h2
    · have hp : p = addr := by simpa using congrArg Prod.fst h1
      exact ⟨[], by simp [hp]⟩
    · exact walkSubs_addr_extends subs addr p fs h2

theorem walkSubs_addr_extends : ∀ (ts : List FsTree) (addr p fs : List String),
    (p, fs) ∈ walkSubs addr ts → ∃ rest : List String, p = addr ++ rest
  | [], addr, p, fs, h => by rw [walkSubs] at h; simp at h
  | t :: ts, addr, p, fs, h => by
    rw [walkSubs] at h
    rcases List.mem_append.mp h with h1 | h2
    · rcases walk_addr_extends t (addr ++ [t.name]) p fs h1 with ⟨rest, hr⟩
      exact ⟨[t.name] ++ rest, by rw [hr, List.append_assoc]⟩
    · exact walkSubs_addr_extends ts addr p fs h2
end

lemma prepareLoop_all_excluded (excludeFolderNames : List String) :
    ∀ (entries : List (List String × List String)) (absRoot : Option (List String)),
      (∀ pr ∈ entries, validate_path excludeFolderNames pr.1 = true) →
      prepareLoop excludeFolderNames entries absRoot = [] := by
  intro entries
  induction entries with
  | nil => intro absRoot _; rfl
  | cons e rest ih =>
    intro absRoot hall
    rcases e with ⟨addr, files⟩
    rw [prepareLoop]
    rw [if_pos (hall (addr, files) (List.mem_cons_self _ _))]
    exact ih absRoot (fun pr hpr => hall pr (List.mem_cons_of_mem _ hpr))

/-- C10: exclusion matching applies to the full walked path, ancestors
included — if the own address of the backup folder contains a component that is a
configured excluded folder name, every walked directory is excluded, the
produced entry sequence is empty, and the resulting archive contains no
files. -/
theorem c10_excluded_root_empty_archive :
    ∀ (excludeFolderNames rootAddr : List String) (t : FsTree) (c : String),
      c ∈ rootAddr → c ∈ excludeFolderNames →
      prepare_folder_for_backup excludeFolderNames rootAddr t = [] ∧
      ∀ (zipfilePath : List String) (onDisk : List String → Bool),
        zipEntries (prepare_folder_for_backup excludeFolderNames rootAddr t)
          zipfilePath onDisk = [] := by
  intro excludeFolderNames rootAddr t c hcr hce
  have hempty : prepare_folder_for_backup excludeFolderNames rootAddr t = [] := by
    unfold prepare_folder_for_backup
    apply prepareLoop_all_excluded
    intro pr hpr
    rcases pr with ⟨p, fs⟩
    rcases walk_addr_extends t rootAddr p fs hpr with ⟨rest, hr⟩
    unfold validate_path
    rw [List.any_eq_true]
    refine ⟨c, hce, ?_⟩
    have : c ∈ p := by rw [hr]; exact List.mem_append_left _ hcr
    simpa using this
  refine ⟨hempty, fun zipfilePath onDisk => ?_⟩
  rw [hempty]
  rfl

/-- Witness for C10: backing up `/home/skip/docs` with exclusion set `{skip}`
produces no entries and an empty archive. -/
theorem c10_excluded_root_empty_archive_witness :
    prepare_folder_for_backup ["skip"] ["home", "skip", "docs"] tDocs = [] ∧
    zipEntries (prepare_folder_for_backup ["skip"] ["home", "skip", "docs"] tDocs)
      ["home", "backup.zip"] (fun _ => true) = [] := by
  rcases c10_excluded_root_empty_archive ["skip"] ["home", "skip", "docs"] tDocs "skip"
    (by decide) (by decide) with ⟨h1, h2⟩
  exact ⟨h1, h2 ["home", "backup.zip"] (fun _ => true)⟩

/-- Counterexample to C7 as stated: with an unchanged filesystem (`docs/`
containing `a.txt` and `skip/b.txt`), a second full iteration of the
`self.files` generator yields the empty sequence, not the same entries as the
first iteration. -/
theorem c7_counterexample :
    (iterateGen ((iterateGen (zipMakerFiles [] ["docs"] tDocs)).2)).1 ≠
      (iterateGen (zipMakerFiles [] ["docs"] tDocs)).1 := by
  decide

/-- C7 amended: `self.files` is a one-shot generator — its first full
iteration yields the walked entries, and any further iteration yields the
empty sequence rather than re-walking the folder. -/
theorem c7_generator_one_shot :
    ∀ (excludeFolderNames rootAddr : List String) (t : FsTree),
      (iterateGen (zipMakerFiles excludeFolderNames rootAddr t)).1 =
        prepare_folder_for_backup excludeFolderNames rootAddr t ∧
      (iterateGen ((iterateGen (zipMakerFiles excludeFolderNames rootAddr t)).2)).1 = [] :=
  fun _ _ _ => ⟨rfl, rfl⟩

/-! ## Worker: `make_backup`

`make_backup` creates the staging archive, uploads it, then calls
`os.remove(zipfile_path)` and returns the ID of the uploaded file. The two
effectful steps that can fail are abstracted as their outcomes: the result of
`ConnGoogleDrive().upload_file(...)` and the result of `os.remove(...)`. A
raised exception propagates out of `make_backup` as in Python — there is no
`try`/`finally` around the upload or the removal. -/

/-- `make_backup` given the outcome of the upload and of the local removal.
Returns the outcome of the function itself (the Google Drive file ID, or the
propagated exception) paired with whether the local staging archive was
actually removed. -/
def make_backup (uploadResult : Except String String)
    (removeResult : Except String Unit) : Except String String × Bool :=
  match uploadResult with
  | .error e => (.error e, false)
  | .ok fileId =>
    match removeResult with
    | .error e => (.error e, false)
    | .ok _ => (.ok fileId, true)

/-- Counterexample to C4 as stated: on a terminal upload failure the
exception propagates before `os.remove` is reached, so the staged archive is
not deleted and persists past the lifetime of the worker. -/
theorem c4_counterexample :
    ¬ ((make_backup (.error "HttpError 403") (.ok ())).2 = true) := by
  decide

/-- C4 amended: the local staging archive is deleted immediately after a
successful upload (when the deletion call itself succeeds), but on a terminal
upload failure the exception propagates before `os.remove`, so the staged
archive is not deleted and persists past the lifetime of the worker. -/
theorem c4_archive_deletion :
    (∀ (fileId : String), make_backup (.ok fileId) (.ok ()) = (.ok fileId, true)) ∧
    (∀ (e : String) (removeResult : Except String Unit),
      make_backup (.error e) removeResult = (.error e, false)) :=
  ⟨fun _ => rfl, fun _ _ => rfl⟩

/-- Counterexample to C8 as stated: when deleting the local archive fails
after a successful upload, the failure is propagated (not merely logged) and
`make_backup` does not return the ID of the uploaded file. -/
theorem c8_counterexample :
    (make_backup (.ok "id1") (.error "PermissionError")).1 ≠ .ok "id1" ∧
    (make_backup (.ok "id1") (.error "PermissionError")).1 = .error "PermissionError" := by
  constructor
  · intro h
    simp [make_backup] at h
  · rfl

/-- C8 amended: a failure of the local archive deletion after a successful
upload propagates out of `make_backup`, and the uploaded remote object ID is
not returned. -/
theorem c8_remove_failure_propagates :
    ∀ (fileId e : String),
      make_backup (.ok fileId) (.error e) = (.error e, false) :=
  fun _ _ => rfl

/-! ## Orchestration: `main`

`main` resolves the folder list, runs `make_backup` over the folders in a
multiprocessing pool (`pool.imap_unordered`), waits for all workers
(`pool.close(); pool.join()`), then — unless `--no-backup-clean` was given —
evaluates `[file_id for file_id in result]` and passes it to
`clean_backup_folder`. Iterating the `imap_unordered` iterator re-raises the
exception of a failed worker when the result of that worker is reached, and the
`@log.catch` decorator logs the exception and swallows it, after which the
process terminates with exit status 0. `outcomes` below is the per-folder
worker outcomes in completion order. -/

/-- The list comprehension `[file_id for file_id in result]`: collects worker
results in completion order and re-raises the exception of the first
failed worker. -/
def collectResults : List (Except String String) → Except String (List String)
  | [] => .ok []
  | .ok fileId :: rest =>
    match collectResults rest with
    | .ok ids => .ok (fileId :: ids)
    | .error e => .error e
  | .error e :: _ => .error e

/-- What happened after the pool settled: the prune step ran with the given
success set and requested deletions; it was skipped via `--no-backup-clean`;
or a re-raised worker exception aborted the run before pruning. -/
inductive RunOutcome where
  | cleaned (successSet : List String) (deleted : List String)
  | skippedClean
  | aborted (e : String)
deriving DecidableEq, Repr

/-- The tail of `main` after `pool.join()`: `--no-backup-clean` exits first;
otherwise the results are collected (re-raising the exception of a failed worker,
which `@log.catch` then swallows) and `clean_backup_folder` runs on them. -/
def mainAfterPool (outcomes : List (Except String String)) (noBackupClean : Bool)
    (googleDriveBackupFolder : Option String) (listed : List String) : RunOutcome :=
  if noBackupClean then .skippedClean
  else
    match collectResults outcomes with
    | .error e => .aborted e
    | .ok ids =>
      .cleaned ids (deletedIds (clean_backup_folder googleDriveBackupFolder listed ids))

/-- Whether the prune step ran. -/
def pruneRan : RunOutcome → Bool
  | .cleaned _ _ => true
  | _ => false

/-- The returned success set, when the run produced one. -/
def successSet : RunOutcome → Option (List String)
  | .cleaned ids _ => some ids
  | _ => none

/-- Counterexample to C1 as stated: the worker of folder A fails while the one of
folder B succeeds with object ID `idB`; collecting the results re-raises the
exception, so no success set is produced and the prune step never runs —
the failure is not isolated in the way the claim describes. -/
theorem c1_counterexample :
    mainAfterPool [.error "A: archive failed", .ok "idB"] false (some "dest")
      ["idB", "oldId"] = .aborted "A: archive failed" ∧
    pruneRan (mainAfterPool [.error "A: archive failed", .ok "idB"] false (some "dest")
      ["idB", "oldId"]) = false ∧
    successSet (mainAfterPool [.error "A: archive failed", .ok "idB"] false (some "dest")
      ["idB", "oldId"]) = none := by
  refine ⟨?_, ?_, ?_⟩
  · decide
  · decide
  · decide

lemma collectResults_map_ok (ids : List String) :
    collectResults (ids.map Except.ok) = .ok ids := by
  induction ids with
  | nil => rfl
  | cons a rest ih => simp [collectResults, ih]

lemma collectResults_has_error (outcomes : List (Except String String)) (e : String)
    (h : Except.error e ∈ outcomes) :
    ∃ e2, collectResults outcomes = .error e2 := by
  induction outcomes with
  | nil => simp at h
  | cons o rest ih =>
    rcases o with e0 | fileId
    · exact ⟨e0, rfl⟩
    · rcases List.mem_cons.mp h with h1 | h2
      · exact absurd h1 (by simp)
      · rcases ih h2 with ⟨e2, he2⟩
        refine ⟨e2, ?_⟩
        simp [collectResults, he2]

/-- C1 amended: workers run to completion independently, but a per-folder
failure is not isolated in the orchestration — when cleanup is not skipped,
if any worker outcome is an error, collecting the results re-raises it
(`@log.catch` logs it), no success set is returned and the prune step never
runs; only when every folder succeeds does the run return the object IDs of all
folders as the success set and prune exactly the listed objects outside it,
never deleting the freshly uploaded object of a succeeded folder. -/
theorem c1_failure_not_isolated :
    (∀ (outcomes : List (Except String String)) (googleDriveBackupFolder : Option String)
      (listed : List String) (e : String), Except.error e ∈ outcomes →
      pruneRan (mainAfterPool outcomes false googleDriveBackupFolder listed) = false ∧
      successSet (mainAfterPool outcomes false googleDriveBackupFolder listed) = none) ∧
    (∀ (ids : List String) (folderId : String) (listed : List String),
      mainAfterPool (ids.map Except.ok) false (some folderId) listed =
        .cleaned ids (listed.filter (fun f => !ids.contains f))) ∧
    (∀ (ids : List String) (folderId : String) (listed : List String) (x : String),
      x ∈ ids →
      x ∉ deletedIds (clean_backup_folder (some folderId) listed ids)) := by
  refine ⟨?_, ?_, ?_⟩
  · intro outcomes googleDriveBackupFolder listed e he
    rcases collectResults_has_error outcomes e he with ⟨e2, he2⟩
    unfold mainAfterPool
    rw [he2]
    exact ⟨rfl, rfl⟩
  · intro ids folderId listed
    unfold mainAfterPool
    rw [collectResults_map_ok]
    simp [clean_backup_folder, deletedIds_cleanTrace, filesToDel]
  · intro ids folderId listed x hx
    unfold clean_backup_folder
    rw [deletedIds_cleanTrace]
    unfold filesToDel
    intro hcontra
    rcases List.mem_filter.mp hcontra with ⟨_, hkeep⟩
    simp at hkeep
    exact hkeep hx

/-- Witness for C1 amended: folder A fails and folder B succeeds — the prune
step does not run and no success set is produced; and a freshly uploaded ID
is never among the requested deletions. -/
theorem c1_failure_not_isolated_witness :
    (pruneRan (mainAfterPool [.error "boom", .ok "idB"] false (some "dest") ["idB"]) = false ∧
      successSet (mainAfterPool [.error "boom", .ok "idB"] false (some "dest") ["idB"]) = none) ∧
    mainAfterPool [Except.ok "idB"] false (some "dest") ["idB", "oldId"] =
      .cleaned ["idB"] ["oldId"] ∧
    "idB" ∉ deletedIds (clean_backup_folder (some "dest") ["idB", "oldId"] ["idB"]) :=
  ⟨c1_failure_not_isolated.1 [.error "boom", .ok "idB"] (some "dest") ["idB"] "boom"
      (List.mem_cons_self _ _),
   by
    have h := c1_failure_not_isolated.2.1 ["idB"] "dest" ["idB", "oldId"]
    simpa using h,
   c1_failure_not_isolated.2.2 ["idB"] "dest" ["idB", "oldId"] "idB"
      (List.mem_cons_self _ _)⟩

/-! ## `main` startup: token check, folder resolution, exit behaviour -/

/-- How the process ends: an explicit `exit(code)` / normal return, or an
exception that the `@log.catch` decorator on `main` caught and logged (after
which `main` returns normally and the process terminates). -/
inductive MainResult where
  | exited (code : Nat)
  | errorLogged (message : String)
deriving DecidableEq, Repr

/-- The process exit status: `@log.catch` swallows the exception after
logging it, so `main` returns and the interpreter exits with status 0. -/
def processExitCode : MainResult → Nat
  | .exited code => code
  | .errorLogged _ => 0

/-- `folders = list(set(args.folders)) if args.folders else
config.get("folders_for_backup")`: an omitted or empty `-f` argument (Python
falsy) falls back to the configured list, which may itself be absent. -/
def resolveFolders (argsFolders configFolders : Option (List String)) :
    Option (List String) :=
  match argsFolders with
  | some (f :: fs) => some ((f :: fs).dedup)
  | _ => configFolders

/-- `main`: with `--fetch-token` it fetches the token and exits 0; otherwise
it checks the token (raising if absent), resolves the folders (raising
`"No folders for backup"` if none), dispatches the pool and finishes with
`mainAfterPool`. Every raised exception is caught and logged by `@log.catch`.
The second component records whether any backup work began (the pool was
dispatched). -/
def mainRun (fetchToken tokenExists : Bool)
    (argsFolders configFolders : Option (List String))
    (outcomes : List (Except String String)) (noBackupClean : Bool)
    (googleDriveBackupFolder : Option String) (listed : List String) :
    MainResult × Bool :=
  if fetchToken then (.exited 0, false)
  else if !tokenExists then
    (.errorLogged "No Google OAuth2 token found. Fetch it using --fetch-token argument.",
      false)
  else
    match resolveFolders argsFolders configFolders with
    | none => (.errorLogged "No folders for backup", false)
    | some [] => (.errorLogged "No folders for backup", false)
    | some (_ :: _) =>
      match mainAfterPool outcomes noBackupClean googleDriveBackupFolder listed with
      | .skippedClean => (.exited 0, true)
      | .aborted e => (.errorLogged e, true)
      | .cleaned _ _ => (.exited 0, true)

/-- Counterexample to C9 as stated: with no `-f` folders and no configured
`folders_for_backup`, the raised `"No folders for backup"` exception is
swallowed by `@log.catch`, so the process stops with exit status 0 — not
with a non-zero outcome. -/
theorem c9_counterexample :
    processExitCode (mainRun false true none none [] false none []).1 = 0 ∧
    (mainRun false true none none [] false none []).1 =
      .errorLogged "No folders for backup" := by
  constructor
  · decide
  · decide

/-- C9 amended: when no backup folders are resolved (no `-f` folders and no
configured `folders_for_backup` list), `main` raises `"No folders for backup"`
before any backup work begins, but `@log.catch` logs and swallows it, so the
process terminates with exit status 0 rather than a non-zero outcome. -/
theorem c9_no_folders_aborts_with_exit_zero :
    ∀ (argsFolders configFolders : Option (List String))
      (outcomes : List (Except String String)) (noBackupClean : Bool)
      (googleDriveBackupFolder : Option String) (listed : List String),
      (resolveFolders argsFolders configFolders = none ∨
        resolveFolders argsFolders configFolders = some []) →
      mainRun false true argsFolders configFolders outcomes noBackupClean
          googleDriveBackupFolder listed =
        (.errorLogged "No folders for backup", false) ∧
      processExitCode (mainRun false true argsFolders configFolders outcomes
          noBackupClean googleDriveBackupFolder listed).1 = 0 := by
  intro argsFolders configFolders outcomes noBackupClean googleDriveBackupFolder listed h
  have hmain : mainRun false true argsFolders configFolders outcomes noBackupClean
      googleDriveBackupFolder listed = (.errorLogged "No folders for backup", false) := by
    unfold mainRun
    rcases h with h | h
    · rw [h]; rfl
    · rw [h]; rfl
  exact ⟨hmain, by rw [hmain]; rfl⟩

/-- Witness for C9 amended at the concrete no-folders configuration. -/
theorem c9_no_folders_witness :
    mainRun false true none none [] false none [] =
      (.errorLogged "No folders for backup", false) ∧
    processExitCode (mainRun false true none none [] false none []).1 = 0 :=
  c9_no_folders_aborts_with_exit_zero none none [] false none [] (Or.inl rfl)

/-- Witness for C3 at a concrete listing and success set. -/
theorem c3_prune_exact_difference_witness :
    deletedIds (clean_backup_folder (some "dest") ["a", "b"] ["b"]) =
      List.filter (fun f => !(["b"] : List String).contains f) ["a", "b"] ∧
    ("a" ∈ deletedIds (clean_backup_folder (some "dest") ["a", "b"] ["b"]) ↔
      "a" ∈ (["a", "b"] : List String) ∧ "a" ∉ (["b"] : List String)) :=
  ⟨(c3_prune_exact_difference "dest" ["a", "b"] ["b"]).1,
   (c3_prune_exact_difference "dest" ["a", "b"] ["b"]).2 "a"⟩

/-- Witness for C4 amended at concrete worker outcomes. -/
theorem c4_archive_deletion_witness :
    make_backup (.ok "id9") (.ok ()) = (.ok "id9", true) ∧
    make_backup (.error "HttpError 403") (.ok ()) = (.error "HttpError 403", false) :=
  ⟨c4_archive_deletion.1 "id9", c4_archive_deletion.2 "HttpError 403" (.ok ())⟩

/-- Witness for C7 amended at the concrete `docs/` tree. -/
theorem c7_generator_one_shot_witness :
    (iterateGen (zipMakerFiles [] ["docs"] tDocs)).1 =
      prepare_folder_for_backup [] ["docs"] tDocs ∧
    (iterateGen ((iterateGen (zipMakerFiles [] ["docs"] tDocs)).2)).1 = [] :=
  c7_generator_one_shot [] ["docs"] tDocs

/-- Witness for C8 amended at a concrete failing removal. -/
theorem c8_remove_failure_propagates_witness :
    make_backup (.ok "id1") (.error "EACCES") = (.error "EACCES", false) :=
  c8_remove_failure_propagates "id1" "EACCES"
